import Mathlib

/-!
# Verification of the VolaryDDNS update script

A shallow embedding, in Lean 4, of the single-file Python program
`global/main-update.py` (a dynamic-DNS updater), together with theorems that
settle the specification claims about it.

Modelling conventions:
* Python strings are Lean `String`s (lists of `Char`); the Python methods `str.strip`,
  `str.lower` and substring containment are re-implemented below.
* The regular expression `^\d{1,3}(\.\d{1,3}){3}$` used by `validate_ip` is
  translated to an executable recognizer.  Two Python-specific points are kept
  faithfully: `re.match` anchors at the start of the string, and the `$`
  anchor matches either at the end of the string or just before a single
  trailing newline.  The Python class `\d` also matches non-ASCII Unicode decimal
  digits; here a digit is modelled as an ASCII digit (`Char.isDigit`), which
  is the shape the surrounding spec and program intend.
* Network I/O is modelled by passing the outcome of each HTTP call (a
  response, or a raised transport exception) as an explicit input.
* File I/O is modelled by explicit state: the last-known-IP file is an
  `Option String` (its content, or absence), and the log file is a `LogState`
  recording its size and the entries appended during the current run.
-/

namespace VolaryDDNS

/-! ## Python string primitives -/

/-- The characters removed by the Python method `str.strip()` with no argument. -/
def isPySpace (c : Char) : Bool :=
  c == ' ' || c == '\t' || c == '\n' || c == '\r' || c == '\x0b' || c == '\x0c'

/-- Strip `isPySpace` characters from both ends of a character list. -/
def stripChars (l : List Char) : List Char :=
  ((l.dropWhile isPySpace).reverse.dropWhile isPySpace).reverse

/-- The Python expression `s.strip()`. -/
def pyStrip (s : String) : String := ⟨stripChars s.data⟩

/-- The Python expression `s.lower()`, for the ASCII bodies the program deals with. -/
def pyLower (s : String) : String := ⟨s.data.map Char.toLower⟩

/-- Test `hasPrefixChars needle hay`: does `hay` start with `needle`? -/
def hasPrefixChars : List Char → List Char → Bool
  | [], _ => true
  | _ :: _, [] => false
  | a :: as, b :: bs => a == b && hasPrefixChars as bs

/-- Test `hasSubstrChars needle hay`: the Python substring test `needle in hay`. -/
def hasSubstrChars (needle : List Char) : List Char → Bool
  | [] => hasPrefixChars needle []
  | c :: rest => hasPrefixChars needle (c :: rest) || hasSubstrChars needle rest

/-- The Python substring test `needle in hay` on strings. -/
def pyContains (hay needle : String) : Bool := hasSubstrChars needle.data hay.data

/-! ## `validate_ip` (source lines 62–65)

```python
def validate_ip(ip):
    # (imports the re module here)
    pattern = re.compile(r"^\d{1,3}(\.\d{1,3}){3}$")
    return bool(pattern.match(ip))
```
-/

/-- Split a character list on `.` separators (empty pieces kept), as the
regex alternation of dot-free groups does. -/
def splitOnDot : List Char → List (List Char)
  | [] => [[]]
  | c :: rest =>
    if c = '.' then [] :: splitOnDot rest
    else
      match splitOnDot rest with
      | [] => [[c]]
      | g :: gs => (c :: g) :: gs

/-- One regex group `\d{1,3}`: one to three digits. -/
def isIpGroup (g : List Char) : Bool :=
  decide (1 ≤ g.length) && decide (g.length ≤ 3) && g.all Char.isDigit

/-- The dotted-quad shape `\d{1,3}(\.\d{1,3}){3}` over a whole character
list: exactly four dot-separated groups of 1–3 digits. -/
def dottedQuadChars (l : List Char) : Bool :=
  (splitOnDot l).length == 4 && (splitOnDot l).all isIpGroup

/-- In Python the `$` anchor may consume position just before one trailing
newline, so matching `...$` against `l` is matching `...` against `l` with a
single trailing newline removed. -/
def dropTrailingNewline (l : List Char) : List Char :=
  if l.getLast? = some '\n' then l.dropLast else l

/-- Function `validate_ip` from the source: `re.match` of `^\d{1,3}(\.\d{1,3}){3}$`
converted to `bool`. -/
def validate_ip (ip : String) : Bool :=
  dottedQuadChars (dropTrailingNewline ip.data)

/-- Spec-side recognizer, following the words of the spec: the string consists of
exactly four dot-separated groups of 1–3 digits (nothing else, in particular
no trailing newline).  `specDottedQuad_iff` below certifies this reading. -/
def specDottedQuad (s : String) : Bool := dottedQuadChars s.data

/-! ### Characterization of `splitOnDot` -/

theorem splitOnDot_ne_nil (l : List Char) : splitOnDot l ≠ [] := by
  cases l with
  | nil => simp [splitOnDot]
  | cons c rest =>
    simp only [splitOnDot]
    split
    · simp
    · cases h : splitOnDot rest <;> simp

/-- Joining groups back with dots. -/
def joinDots : List (List Char) → List Char
  | [] => []
  | [g] => g
  | g :: gs => g ++ '.' :: joinDots gs

theorem joinDots_cons (g : List Char) (gs : List (List Char)) (h : gs ≠ []) :
    joinDots (g :: gs) = g ++ '.' :: joinDots gs := by
  cases gs with
  | nil => exact absurd rfl h
  | cons g2 gs2 => rfl

theorem joinDots_splitOnDot (l : List Char) : joinDots (splitOnDot l) = l := by
  induction l with
  | nil => rfl
  | cons c rest ih =>
    simp only [splitOnDot]
    split
    · rename_i hdot
      rw [joinDots_cons _ _ (splitOnDot_ne_nil rest), ih, hdot]
      rfl
    · cases h : splitOnDot rest with
      | nil => exact absurd h (splitOnDot_ne_nil rest)
      | cons g gs =>
        rw [h] at ih
        cases gs with
        | nil =>
          simp only [joinDots] at ih ⊢
          rw [ih]
        | cons g2 gs2 =>
          rw [joinDots_cons _ _ (by simp)] at ih
          rw [joinDots_cons _ _ (by simp)]
          simp only [List.cons_append]
          rw [ih]

theorem splitOnDot_no_dot (g : List Char) (h : '.' ∉ g) : splitOnDot g = [g] := by
  induction g with
  | nil => rfl
  | cons c rest ih =>
    simp only [List.mem_cons, not_or] at h
    have hr := ih h.2
    show splitOnDot (c :: rest) = [c :: rest]
    simp only [splitOnDot]
    rw [if_neg (by exact fun hc => h.1 hc.symm), hr]

theorem splitOnDot_group (g t : List Char) (h : '.' ∉ g) :
    splitOnDot (g ++ '.' :: t) = g :: splitOnDot t := by
  induction g with
  | nil => simp [splitOnDot]
  | cons c rest ih =>
    simp only [List.mem_cons, not_or] at h
    have hr := ih h.2
    show splitOnDot (c :: (rest ++ '.' :: t)) = (c :: rest) :: splitOnDot t
    simp only [splitOnDot]
    rw [if_neg (by exact fun hc => h.1 hc.symm), hr]

theorem isIpGroup_no_dot (g : List Char) (h : isIpGroup g = true) : '.' ∉ g := by
  intro hmem
  simp only [isIpGroup, Bool.and_eq_true, decide_eq_true_eq, List.all_eq_true] at h
  exact absurd (h.2 '.' hmem) (by decide)

/-- The executable recognizer `dottedQuadChars` means exactly what the spec
says: the list is four dot-separated groups of one to three digits. -/
theorem dottedQuadChars_iff (l : List Char) :
    dottedQuadChars l = true ↔
      ∃ g1 g2 g3 g4 : List Char,
        isIpGroup g1 = true ∧ isIpGroup g2 = true ∧
        isIpGroup g3 = true ∧ isIpGroup g4 = true ∧
        l = g1 ++ '.' :: (g2 ++ '.' :: (g3 ++ '.' :: g4)) := by
  constructor
  · intro h
    simp only [dottedQuadChars, Bool.and_eq_true, beq_iff_eq, List.all_eq_true] at h
    obtain ⟨hlen, hall⟩ := h
    obtain ⟨g1, t1, hsp⟩ : ∃ a t, splitOnDot l = a :: t := by
      cases h' : splitOnDot l with
      | nil => exact absurd h' (splitOnDot_ne_nil l)
      | cons a t => exact ⟨a, t, rfl⟩
    rw [hsp] at hlen
    simp only [List.length_cons, Nat.succ_inj] at hlen
    obtain ⟨g2, g3, g4, rfl⟩ := List.length_eq_three.mp hlen
    refine ⟨g1, g2, g3, g4, ?_, ?_, ?_, ?_, ?_⟩
    · exact hall g1 (by rw [hsp]; simp)
    · exact hall g2 (by rw [hsp]; simp)
    · exact hall g3 (by rw [hsp]; simp)
    · exact hall g4 (by rw [hsp]; simp)
    · have hj := joinDots_splitOnDot l
      rw [hsp] at hj
      simp only [joinDots] at hj
      exact hj.symm
  · rintro ⟨g1, g2, g3, g4, h1, h2, h3, h4, rfl⟩
    simp only [dottedQuadChars]
    rw [splitOnDot_group g1 _ (isIpGroup_no_dot g1 h1),
        splitOnDot_group g2 _ (isIpGroup_no_dot g2 h2),
        splitOnDot_group g3 _ (isIpGroup_no_dot g3 h3),
        splitOnDot_no_dot g4 (isIpGroup_no_dot g4 h4)]
    simp [h1, h2, h3, h4]

/-- The spec-side recognizer on strings, read back as the sentence of the spec. -/
theorem specDottedQuad_iff (s : String) :
    specDottedQuad s = true ↔
      ∃ g1 g2 g3 g4 : List Char,
        isIpGroup g1 = true ∧ isIpGroup g2 = true ∧
        isIpGroup g3 = true ∧ isIpGroup g4 = true ∧
        s.data = g1 ++ '.' :: (g2 ++ '.' :: (g3 ++ '.' :: g4)) :=
  dottedQuadChars_iff s.data

theorem join4_getLast?_isDigit (g1 g2 g3 g4 : List Char) (h4 : isIpGroup g4 = true) :
    ∃ d, (g1 ++ '.' :: (g2 ++ '.' :: (g3 ++ '.' :: g4))).getLast? = some d ∧
      d.isDigit = true := by
  have hne : g4 ≠ [] := by
    intro h
    rw [h] at h4
    simp [isIpGroup] at h4
  obtain ⟨d, hd⟩ : ∃ d, g4.getLast? = some d := by
    cases hg : g4.getLast? with
    | none => exact absurd (List.getLast?_eq_none_iff.mp hg) hne
    | some d => exact ⟨d, rfl⟩
  refine ⟨d, ?_, ?_⟩
  · rw [List.getLast?_append_cons]
    rw [show '.' :: (g2 ++ '.' :: (g3 ++ '.' :: g4))
          = ('.' :: g2) ++ '.' :: (g3 ++ '.' :: g4) by simp]
    rw [List.getLast?_append_cons]
    rw [show '.' :: (g3 ++ '.' :: g4) = ('.' :: g3) ++ '.' :: g4 by simp]
    rw [List.getLast?_append_cons]
    rw [show ('.' :: g4 : List Char) = ['.'] ++ g4 by simp]
    rw [List.getLast?_append_of_ne_nil _ hne, hd]
  · obtain ⟨hne2, hx⟩ :=
      List.mem_getLast?_eq_getLast (l := g4) (x := d) (by rw [Option.mem_def, hd])
    simp only [isIpGroup, Bool.and_eq_true, List.all_eq_true] at h4
    exact h4.2 d (hx ▸ List.getLast_mem hne2)

/-- C1 (amended): `validate_ip` accepts exactly the strings that are four
dot-separated groups of 1–3 digits, optionally followed by one trailing
newline (which the Python `$` anchor tolerates under `re.match`). -/
theorem validate_ip_characterization (s : String) :
    validate_ip s = true ↔
      ∃ g1 g2 g3 g4 : List Char,
        isIpGroup g1 = true ∧ isIpGroup g2 = true ∧
        isIpGroup g3 = true ∧ isIpGroup g4 = true ∧
        (s.data = g1 ++ '.' :: (g2 ++ '.' :: (g3 ++ '.' :: g4)) ∨
         s.data = (g1 ++ '.' :: (g2 ++ '.' :: (g3 ++ '.' :: g4))) ++ ['\n']) := by
  unfold validate_ip dropTrailingNewline
  by_cases hl : s.data.getLast? = some '\n'
  · rw [if_pos hl, dottedQuadChars_iff]
    constructor
    · rintro ⟨g1, g2, g3, g4, h1, h2, h3, h4, hj⟩
      refine ⟨g1, g2, g3, g4, h1, h2, h3, h4, Or.inr ?_⟩
      rw [← hj]
      exact (List.dropLast_append_getLast? '\n' (by rw [Option.mem_def, hl])).symm
    · rintro ⟨g1, g2, g3, g4, h1, h2, h3, h4, hj | hj⟩
      · exfalso
        obtain ⟨d, hd, hdig⟩ := join4_getLast?_isDigit g1 g2 g3 g4 h4
        rw [hj, hd] at hl
        cases hl
        exact absurd hdig (by decide)
      · refine ⟨g1, g2, g3, g4, h1, h2, h3, h4, ?_⟩
        rw [hj]
        exact List.dropLast_concat
  · rw [if_neg hl, dottedQuadChars_iff]
    constructor
    · rintro ⟨g1, g2, g3, g4, h1, h2, h3, h4, hj⟩
      exact ⟨g1, g2, g3, g4, h1, h2, h3, h4, Or.inl hj⟩
    · rintro ⟨g1, g2, g3, g4, h1, h2, h3, h4, hj | hj⟩
      · exact ⟨g1, g2, g3, g4, h1, h2, h3, h4, hj⟩
      · exfalso
        rw [hj] at hl
        exact hl (List.getLast?_concat _)

/-- C1 (counterexample): the string `"1.2.3.4\n"` is not four dot-separated
digit groups (it has a trailing newline, certified via `specDottedQuad`,
whose meaning is fixed by `specDottedQuad_iff`), yet `validate_ip` returns
true on it, because the Python `$` anchor also matches just before a single
trailing newline. -/
theorem validate_ip_trailing_newline_cex :
    validate_ip "1.2.3.4\n" = true ∧ specDottedQuad "1.2.3.4\n" = false := by
  constructor <;> rfl

/-! ### Idempotence of `pyStrip` (needed for the last-known-IP comparison) -/

theorem head?_dropWhile_false (p : Char → Bool) (x : List Char) (c : Char)
    (h : (x.dropWhile p).head? = some c) : p c = false := by
  induction x with
  | nil => simp [List.dropWhile] at h
  | cons a rest ih =>
    rw [List.dropWhile_cons] at h
    by_cases ha : p a
    · rw [if_pos ha] at h
      exact ih h
    · rw [if_neg ha] at h
      simp only [List.head?_cons, Option.some_inj] at h
      rw [← h]
      exact Bool.eq_false_iff.mpr ha

theorem getLast?_of_suffix {s l : List Char} (h : s <:+ l) (hne : s ≠ []) :
    s.getLast? = l.getLast? := by
  obtain ⟨t, rfl⟩ := h
  exact (List.getLast?_append_of_ne_nil t hne).symm

theorem dropWhile_stripChars (l : List Char) :
    (stripChars l).dropWhile isPySpace = stripChars l := by
  cases hs : stripChars l with
  | nil => rfl
  | cons c rest =>
    rw [← hs]
    have hhead : (stripChars l).head? = some c := by rw [hs]; rfl
    have hc : isPySpace c = false := by
      unfold stripChars at hhead
      rw [List.head?_reverse] at hhead
      have hsuf := List.dropWhile_suffix
        (l := (l.dropWhile isPySpace).reverse) isPySpace
      have hne : (l.dropWhile isPySpace).reverse.dropWhile isPySpace ≠ [] := by
        intro h0
        rw [stripChars, h0] at hs
        exact List.noConfusion hs
      rw [getLast?_of_suffix hsuf hne, List.getLast?_reverse] at hhead
      exact head?_dropWhile_false isPySpace l c hhead
    cases hs2 : stripChars l with
    | nil => rfl
    | cons c2 rest2 =>
      have : c2 = c := by
        rw [hs2] at hs
        exact (List.cons.injEq .. ▸ hs).1
      rw [List.dropWhile_cons, this, hc]
      simp

theorem stripChars_idem (l : List Char) : stripChars (stripChars l) = stripChars l := by
  show (((stripChars l).dropWhile isPySpace).reverse.dropWhile isPySpace).reverse
      = stripChars l
  rw [dropWhile_stripChars l]
  unfold stripChars
  rw [List.reverse_reverse, List.dropWhile_idempotent]

theorem pyStrip_idem (s : String) : pyStrip (pyStrip s) = pyStrip s := by
  unfold pyStrip
  exact congrArg String.mk (stripChars_idem s.data)

/-! ## `update_ddns` (source lines 67–94)

```python
def update_ddns(ip):
    payload = { "token": TOKEN, "ip": ip }
    headers = { "Content-Type": "application/json",
                "User-Agent": "VolaryDDNS-Script/1.0" }
    try:
        response = requests.post(API_URL, headers=headers, json=payload,
                                 timeout=TIMEOUT)
        log_message("DEBUG", f"API Response: ...")
        if response.ok and any(k in response.text.lower()
                               for k in ["success", "updated", "ok"]):
            log_message("INFO", "DNS record updated successfully")
            with open(LAST_IP_FILE, "w") as f:
                f.write(ip)
            return True
        else:
            try:
                error_data = response.json()
                error_msg = error_data.get("error") or error_data.get("message") \
                    or response.text
            except Exception:
                error_msg = response.text
            log_message("ERROR", f"API request failed: ...")
            return False
    except Exception as e:
        log_message("ERROR", f"API request exception: ...")
        return False
```

The POST outcome (a response, or a raised transport exception) is an
explicit input.  A response carries the HTTP status, the body text, and the
result of `response.json()` restricted to what the code consumes: `none`
when parsing raises (or yields a non-dict, so that `.get` raises inside the
same `try`), otherwise the key/value pairs of the parsed object.  String
and null JSON values cover every shape the claims exercise. -/

/-- A JSON value as consumed by the failure path (`error`/`message` fields). -/
inductive JVal where
  | str (s : String)
  | null
  deriving DecidableEq

/-- Python truthiness of a JSON field value (`""` and `null` are falsy). -/
def JVal.truthy : JVal → Bool
  | .str s => s != ""
  | .null => false

/-- How the value prints when interpolated into the log f-string. -/
def JVal.render : JVal → String
  | .str s => s
  | .null => "None"

/-- An HTTP response as seen by `update_ddns`. -/
structure HttpResponse where
  status : Nat
  body : String
  jsonAttrs : Option (List (String × JVal))
  deriving DecidableEq

/-- Predicate `response.ok` from the requests library: status below 400. -/
def HttpResponse.respOk (r : HttpResponse) : Bool := decide (r.status < 400)

/-- Outcome of the POST call: a response, or a raised transport exception. -/
inductive PostResult where
  | resp (r : HttpResponse)
  | exc (msg : String)
  deriving DecidableEq

/-- One `log_message(level, message)` call, by level and message text. -/
structure LogEntry where
  level : String
  message : String
  deriving DecidableEq

/-- Python `dict.get` on the parsed JSON object (keys are unique). -/
def jsonGet (obj : List (String × JVal)) (k : String) : Option JVal :=
  (obj.find? (fun p => p.1 == k)).map (fun p => p.2)

/-- Python `a or next` where `a` is a `dict.get` result: the rendered value
if present and truthy, otherwise `next`. -/
def pyOrElse (a : Option JVal) (next : String) : String :=
  match a with
  | some v => if v.truthy then v.render else next
  | none => next

/-- The `error_msg` computed on the failure path:
`error_data.get("error") or error_data.get("message") or response.text`,
with `response.text` whenever `response.json()` raised. -/
def errorMsgOf (r : HttpResponse) : String :=
  match r.jsonAttrs with
  | none => r.body
  | some obj => pyOrElse (jsonGet obj "error") (pyOrElse (jsonGet obj "message") r.body)

/-- The success keywords tested against the lower-cased body. -/
def successKeywords : List String := ["success", "updated", "ok"]

/-- The Python test `any(k in response.text.lower() for k in ["success", "updated", "ok"])`. -/
def bodyIndicatesSuccess (body : String) : Bool :=
  successKeywords.any (fun k => pyContains (pyLower body) k)

/-- What one call of `update_ddns` returns and does: its boolean result, the
write to the last-known-IP file (if any), and the log entries it emits. -/
structure UpdateOutcome where
  success : Bool
  lastIpWrite : Option String
  logs : List LogEntry
  deriving DecidableEq

/-- Function `update_ddns` from the source. -/
def update_ddns (ip : String) (post : PostResult) : UpdateOutcome :=
  match post with
  | .exc e =>
      { success := false
        lastIpWrite := none
        logs := [⟨"ERROR", "API request exception: " ++ e⟩] }
  | .resp r =>
      if r.respOk && bodyIndicatesSuccess r.body then
        { success := true
          lastIpWrite := some ip
          logs := [⟨"DEBUG", "API Response: " ++ r.body⟩,
                   ⟨"INFO", "DNS record updated successfully"⟩] }
      else
        { success := false
          lastIpWrite := none
          logs := [⟨"DEBUG", "API Response: " ++ r.body⟩,
                   ⟨"ERROR", "API request failed: " ++ errorMsgOf r⟩] }

theorem respOk_iff (r : HttpResponse) : r.respOk = true ↔ r.status < 400 := by
  simp [HttpResponse.respOk]

theorem bodyIndicatesSuccess_iff (b : String) :
    bodyIndicatesSuccess b = true ↔
      (pyContains (pyLower b) "success" = true ∨
       pyContains (pyLower b) "updated" = true ∨
       pyContains (pyLower b) "ok" = true) := by
  simp [bodyIndicatesSuccess, successKeywords]

/-- C2: `update_ddns ip` returns success exactly when the POST produced a
response with a non-error HTTP status (below 400) whose lower-cased body
contains one of the substrings "success", "updated", "ok"; and whenever it
returns success it has overwritten the last-known-IP file with exactly
`ip`. -/
theorem update_ddns_success_iff (ip : String) (post : PostResult) :
    ((update_ddns ip post).success = true ↔
      ∃ r, post = PostResult.resp r ∧ r.status < 400 ∧
        (pyContains (pyLower r.body) "success" = true ∨
         pyContains (pyLower r.body) "updated" = true ∨
         pyContains (pyLower r.body) "ok" = true)) ∧
    ((update_ddns ip post).success = true →
      (update_ddns ip post).lastIpWrite = some ip) := by
  cases post with
  | exc e =>
    refine ⟨⟨fun h => absurd h (by simp [update_ddns]), ?_⟩,
            fun h => absurd h (by simp [update_ddns])⟩
    rintro ⟨r, hr, -⟩
    exact PostResult.noConfusion hr
  | resp r =>
    by_cases hc : (r.respOk && bodyIndicatesSuccess r.body) = true
    · obtain ⟨hok, hbody⟩ := Bool.and_eq_true .. ▸ hc
      simp only [update_ddns, if_pos hc]
      refine ⟨⟨fun _ => ⟨r, rfl, (respOk_iff r).mp hok,
        (bodyIndicatesSuccess_iff r.body).mp hbody⟩, fun _ => by trivial⟩,
        fun _ => by trivial⟩
    · simp only [update_ddns, if_neg hc]
      refine ⟨⟨fun h => absurd h (by simp), ?_⟩, fun h => absurd h (by simp)⟩
      rintro ⟨r2, hr2, hok, hbody⟩
      obtain rfl : r = r2 := PostResult.resp.inj hr2
      refine absurd ?_ hc
      rw [Bool.and_eq_true]
      exact ⟨(respOk_iff r).mpr hok, (bodyIndicatesSuccess_iff r.body).mpr hbody⟩

/-- C2 (witness): a 200 response with body "Updated OK" makes `update_ddns`
overwrite the last-known-IP file with the new address. -/
theorem update_ddns_success_iff_witness :
    (update_ddns "198.51.100.9"
        (PostResult.resp
          { status := 200, body := "Updated OK", jsonAttrs := none })).lastIpWrite
      = some "198.51.100.9" :=
  (update_ddns_success_iff "198.51.100.9" _).2 (by decide)

/-- C5: whenever `update_ddns` returns failure — a response without a
success indicator, or a transport exception during the POST — the
last-known-IP file is not written; and a transport exception is converted
into a failure return rather than propagating. -/
theorem update_ddns_failure_frame (ip : String) (post : PostResult) :
    ((update_ddns ip post).success = false →
      (update_ddns ip post).lastIpWrite = none) ∧
    (∀ e, post = PostResult.exc e → (update_ddns ip post).success = false) := by
  cases post with
  | exc e => exact ⟨fun _ => rfl, fun _ _ => rfl⟩
  | resp r =>
    refine ⟨?_, fun e he => PostResult.noConfusion he⟩
    by_cases hc : (r.respOk && bodyIndicatesSuccess r.body) = true
    · intro h
      rw [update_ddns] at h
      rw [if_pos hc] at h
      exact absurd h (by simp)
    · intro _
      rw [update_ddns, if_neg hc]

/-- C5 (witness): a transport exception leaves the file unwritten and
returns failure. -/
theorem update_ddns_failure_frame_witness :
    (update_ddns "198.51.100.9" (PostResult.exc "timeout")).lastIpWrite = none ∧
    (update_ddns "198.51.100.9" (PostResult.exc "timeout")).success = false :=
  ⟨(update_ddns_failure_frame "198.51.100.9" _).1 (by decide),
   (update_ddns_failure_frame "198.51.100.9" _).2 "timeout" rfl⟩

/-! ### The logged error detail (claim C9) -/

/-- A JSON field read the spec-side way: its rendered value when present and
truthy (for a string field: non-empty), and nothing otherwise. -/
def truthyField (obj : List (String × JVal)) (k : String) : Option String :=
  match jsonGet obj k with
  | some v => if v.truthy then some v.render else none
  | none => none

/-- Spec-side (amended) choice of the logged error detail: the `error`
field when present and truthy, else the `message` field when present and
truthy, else — and also whenever JSON parsing failed — the raw body text. -/
def specErrorChoice (r : HttpResponse) : String :=
  match r.jsonAttrs with
  | none => r.body
  | some obj => ((truthyField obj "error").or (truthyField obj "message")).getD r.body

theorem errorMsgOf_eq_specErrorChoice (r : HttpResponse) :
    errorMsgOf r = specErrorChoice r := by
  rcases r with ⟨status, body, _ | obj⟩
  · rfl
  · rcases he : jsonGet obj "error" with _ | v
    · rcases hm : jsonGet obj "message" with _ | w
      · simp [errorMsgOf, specErrorChoice, truthyField, pyOrElse, he, hm]
      · by_cases hw : w.truthy = true <;>
          simp [errorMsgOf, specErrorChoice, truthyField, pyOrElse, he, hm, hw]
    · by_cases hv : v.truthy = true
      · simp [errorMsgOf, specErrorChoice, truthyField, pyOrElse, he, hv]
      · rcases hm : jsonGet obj "message" with _ | w
        · simp [errorMsgOf, specErrorChoice, truthyField, pyOrElse, he, hm, hv]
        · by_cases hw : w.truthy = true <;>
            simp [errorMsgOf, specErrorChoice, truthyField, pyOrElse, he, hm, hv, hw]

/-- C9 (counterexample): the response body `{"error": ""}` parses to a JSON
object in which the `error` field is present (with value `""`), yet the
logged failure message is the raw body text, not the value of that field — the
fall-back is not restricted to "parsing fails or neither field present". -/
theorem update_ddns_error_msg_cex :
    (update_ddns "203.0.113.5"
        (PostResult.resp
          { status := 400, body := "\x7b\"error\": \"\"\x7d",
            jsonAttrs := some [("error", JVal.str "")] })).logs
      = [⟨"DEBUG", "API Response: \x7b\"error\": \"\"\x7d"⟩,
         ⟨"ERROR", "API request failed: \x7b\"error\": \"\"\x7d"⟩] ∧
    jsonGet [("error", JVal.str "")] "error" = some (JVal.str "") ∧
    "\x7b\"error\": \"\"\x7d" ≠ "" := by
  refine ⟨?_, ?_, ?_⟩ <;> decide

/-- C9 (amended): on an update failure with a response in hand, the logged
error message carries the JSON `error` field when present and truthy
(non-empty), else the `message` field likewise, and the raw body text
exactly when JSON parsing fails or neither field is present with a truthy
value. -/
theorem update_ddns_error_msg_amended (ip : String) (r : HttpResponse)
    (hfail : (r.respOk && bodyIndicatesSuccess r.body) = false) :
    (update_ddns ip (PostResult.resp r)).logs =
      [⟨"DEBUG", "API Response: " ++ r.body⟩,
       ⟨"ERROR", "API request failed: " ++ specErrorChoice r⟩] := by
  rw [update_ddns, if_neg (by rw [hfail]; exact Bool.false_ne_true),
    errorMsgOf_eq_specErrorChoice]

/-- C9 (witness): a 400 response whose JSON body carries a `message` field
logs the value of that field as the failure detail. -/
theorem update_ddns_error_msg_amended_witness :
    (update_ddns "198.51.100.9"
        (PostResult.resp
          { status := 400, body := "bad request",
            jsonAttrs := some [("message", JVal.str "invalid token")] })).logs
      = [⟨"DEBUG", "API Response: bad request"⟩,
         ⟨"ERROR", "API request failed: invalid token"⟩] := by
  rw [update_ddns_error_msg_amended _ _ (by decide)]
  rfl

/-! ## `get_public_ip` (source lines 43–60)

```python
def get_public_ip():
    for attempt in range(3):
        try:
            response = requests.get("https://api.ipify.org", timeout=TIMEOUT)
            if response.status_code == 200:
                ip = response.text.strip()
                if validate_ip(ip):
                    log_message("INFO", f"Successfully retrieved IP address: ...")
                    return ip
                else:
                    log_message("WARN", f"Attempt ...: Invalid IP format: ...")
            else:
                log_message("WARN", f"Attempt ...: HTTP error ...")
        except Exception as e:
            log_message("WARN", f"Attempt ...: Failed to retrieve IP: ...")
        if attempt < 2:
            time.sleep(5)
    return None
```

The outcome of each GET (a response, or a raised transport exception) is an
explicit input, indexed by the attempt number. -/

/-- Outcome of one GET to the IP-echo service. -/
inductive FetchOutcome where
  | resp (status : Nat) (body : String)
  | exc (msg : String)

/-- One iteration of the retry loop: the returned IP (if the attempt
succeeds) and the log entry the iteration emits. -/
def attemptStep (attempt : Nat) (g : FetchOutcome) : Option String × List LogEntry :=
  match g with
  | .exc e =>
      (none, [⟨"WARN", "Attempt " ++ toString (attempt + 1)
                ++ ": Failed to retrieve IP: " ++ e⟩])
  | .resp status body =>
      if status = 200 then
        if validate_ip (pyStrip body) then
          (some (pyStrip body),
           [⟨"INFO", "Successfully retrieved IP address: " ++ pyStrip body⟩])
        else
          (none, [⟨"WARN", "Attempt " ++ toString (attempt + 1)
                    ++ ": Invalid IP format: \x27" ++ pyStrip body ++ "\x27"⟩])
      else
        (none, [⟨"WARN", "Attempt " ++ toString (attempt + 1)
                  ++ ": HTTP error " ++ toString status⟩])

/-- What one call of `get_public_ip` returns and does: the IP (or absence),
the number of attempts performed, the list of sleep durations (in seconds)
performed between attempts, and the emitted log entries. -/
structure FetchResult where
  ip : Option String
  attempts : Nat
  sleeps : List Nat
  logs : List LogEntry

/-- The `for attempt in range(3)` loop, over the list of remaining attempt
indices; `time.sleep(5)` runs after a failed attempt when `attempt < 2`. -/
def fetchLoop (outcomes : Nat → FetchOutcome) : List Nat → FetchResult
  | [] => { ip := none, attempts := 0, sleeps := [], logs := [] }
  | a :: rest =>
    match attemptStep a (outcomes a) with
    | (some ip, lg) => { ip := some ip, attempts := 1, sleeps := [], logs := lg }
    | (none, lg) =>
      let tail := fetchLoop outcomes rest
      { ip := tail.ip
        attempts := 1 + tail.attempts
        sleeps := (if a < 2 then [5] else []) ++ tail.sleeps
        logs := lg ++ tail.logs }

/-- Function `get_public_ip` from the source: three attempts, indices 0, 1, 2. -/
def get_public_ip (outcomes : Nat → FetchOutcome) : FetchResult :=
  fetchLoop outcomes [0, 1, 2]

/-- C4: `get_public_ip` performs at most 3 attempts; every sleep lasts
5 seconds and there is exactly one sleep between consecutive attempts (so
none after the final attempt); and when every attempt fails it returns
absence — the function is total, so no exception reaches the caller. -/
theorem get_public_ip_retry_policy (outcomes : Nat → FetchOutcome) :
    (get_public_ip outcomes).attempts ≤ 3 ∧
    (get_public_ip outcomes).sleeps.length + 1 = (get_public_ip outcomes).attempts ∧
    (∀ d ∈ (get_public_ip outcomes).sleeps, d = 5) ∧
    ((∀ a, a < 3 → (attemptStep a (outcomes a)).1 = none) →
      (get_public_ip outcomes).ip = none) := by
  refine ⟨?_, ?_, ?_, ?_⟩
  · rcases h0 : attemptStep 0 (outcomes 0) with ⟨_ | ip0, lg0⟩ <;>
      rcases h1 : attemptStep 1 (outcomes 1) with ⟨_ | ip1, lg1⟩ <;>
        rcases h2 : attemptStep 2 (outcomes 2) with ⟨_ | ip2, lg2⟩ <;>
          simp_all [get_public_ip, fetchLoop]
  · rcases h0 : attemptStep 0 (outcomes 0) with ⟨_ | ip0, lg0⟩ <;>
      rcases h1 : attemptStep 1 (outcomes 1) with ⟨_ | ip1, lg1⟩ <;>
        rcases h2 : attemptStep 2 (outcomes 2) with ⟨_ | ip2, lg2⟩ <;>
          simp_all [get_public_ip, fetchLoop]
  · rcases h0 : attemptStep 0 (outcomes 0) with ⟨_ | ip0, lg0⟩ <;>
      rcases h1 : attemptStep 1 (outcomes 1) with ⟨_ | ip1, lg1⟩ <;>
        rcases h2 : attemptStep 2 (outcomes 2) with ⟨_ | ip2, lg2⟩ <;>
          simp_all [get_public_ip, fetchLoop]
  · intro hall
    have e0 := hall 0 (by decide)
    have e1 := hall 1 (by decide)
    have e2 := hall 2 (by decide)
    rcases h0 : attemptStep 0 (outcomes 0) with ⟨o0, lg0⟩
    rcases h1 : attemptStep 1 (outcomes 1) with ⟨o1, lg1⟩
    rcases h2 : attemptStep 2 (outcomes 2) with ⟨o2, lg2⟩
    rw [h0] at e0
    rw [h1] at e1
    rw [h2] at e2
    simp only at e0 e1 e2
    subst e0
    subst e1
    subst e2
    simp [get_public_ip, fetchLoop, h0, h1, h2]

/-- C4 (witness): with a transport failure on every attempt, the function
returns absence after exactly three attempts. -/
theorem get_public_ip_retry_policy_witness :
    (get_public_ip (fun _ => FetchOutcome.exc "timeout")).ip = none ∧
    (get_public_ip (fun _ => FetchOutcome.exc "timeout")).attempts = 3 :=
  ⟨(get_public_ip_retry_policy (fun _ => FetchOutcome.exc "timeout")).2.2.2
      (fun _ _ => rfl),
   by decide⟩

/-- An IP returned by the retry loop was returned by one of its attempts. -/
theorem fetchLoop_ip_of_some (outcomes : Nat → FetchOutcome) (l : List Nat)
    (ip : String) (h : (fetchLoop outcomes l).ip = some ip) :
    ∃ a, (attemptStep a (outcomes a)).1 = some ip := by
  induction l with
  | nil => exact Option.noConfusion h
  | cons a rest ih =>
    rw [fetchLoop] at h
    rcases ha : attemptStep a (outcomes a) with ⟨o, lg⟩
    rw [ha] at h
    cases o with
    | some b =>
      refine ⟨a, ?_⟩
      rw [ha]
      simp only at h ⊢
      exact h
    | none =>
      simp only at h
      exact ih h

/-- Any IP that `get_public_ip` returns went through `.strip()` and
`validate_ip`: it is strip-invariant and matches the dotted-quad pattern. -/
theorem get_public_ip_ip_shape (outcomes : Nat → FetchOutcome) (ip : String)
    (h : (get_public_ip outcomes).ip = some ip) :
    validate_ip ip = true ∧ pyStrip ip = ip ∧ ip ≠ "" := by
  have step : ∀ a b, (attemptStep a (outcomes a)).1 = some b →
      validate_ip b = true ∧ pyStrip b = b ∧ b ≠ "" := by
    intro a b hab
    cases hg : outcomes a with
    | exc e => rw [hg] at hab; exact Option.noConfusion hab
    | resp status body =>
      rw [hg] at hab
      simp only [attemptStep] at hab
      by_cases hst : status = 200
      · rw [if_pos hst] at hab
        by_cases hv : validate_ip (pyStrip body) = true
        · rw [if_pos hv] at hab
          obtain rfl : pyStrip body = b := Option.some.inj hab
          refine ⟨hv, pyStrip_idem body, ?_⟩
          intro hemp
          rw [hemp] at hv
          exact absurd hv (by decide)
        · rw [if_neg hv] at hab
          exact Option.noConfusion hab
      · rw [if_neg hst] at hab
        exact Option.noConfusion hab
  obtain ⟨a, ha⟩ := fetchLoop_ip_of_some outcomes [0, 1, 2] ip h
  exact step a ip ha

/-! ## `log_message` and the log file (source lines 28–41)

```python
def log_message(level, message):
    timestamp = datetime.now().strftime("%Y-%m-%d %H:%M:%S")
    log_entry = f"[{timestamp}] [{level}] {message}\\n"
    with open(LOG_FILE, "a") as f:
        f.write(log_entry)
```

The string literal ends in `\\n` — an escaped backslash followed by the
letter `n` — so each appended entry ends in those two characters, not in a
newline. -/

/-- The exact character sequence one `log_message(level, message)` call
appends to the log file.  Faithfully to the source, it ends in the two
characters backslash and `n`, not in a newline. -/
def log_entry_bytes (timestamp level message : String) : String :=
  "[" ++ timestamp ++ "] [" ++ level ++ "] " ++ message ++ "\\n"

/-- C8: contrary to the claim, the appended log entry is not a
newline-terminated line.  For any timestamp, level and message themselves
free of newlines, the appended bytes contain no newline at all and end in
the two characters `\` and `n`. -/
theorem log_entry_not_newline_terminated (ts level message : String)
    (hts : '\n' ∉ ts.data) (hlv : '\n' ∉ level.data)
    (hmsg : '\n' ∉ message.data) :
    '\n' ∉ (log_entry_bytes ts level message).data ∧
    (log_entry_bytes ts level message).data.getLast? = some 'n' ∧
    (log_entry_bytes ts level message).data.dropLast.getLast? = some '\\' := by
  have hdata : (log_entry_bytes ts level message).data
      = ('[' :: ts.data) ++ (']' :: ' ' :: '[' :: level.data)
        ++ (']' :: ' ' :: message.data) ++ ['\\', 'n'] := by
    simp [log_entry_bytes, String.data_append]
  refine ⟨?_, ?_, ?_⟩
  · rw [hdata]
    simp [hts, hlv, hmsg]
  · rw [hdata, show (['\\', 'n'] : List Char) = ['\\'] ++ ['n'] from rfl,
      ← List.append_assoc, List.getLast?_concat]
  · rw [hdata, show (['\\', 'n'] : List Char) = ['\\'] ++ ['n'] from rfl,
      ← List.append_assoc, List.dropLast_concat, List.getLast?_concat]

/-- C8 (witness): the entry for the start message contains no newline and
ends in backslash-`n`. -/
theorem log_entry_not_newline_terminated_witness :
    '\n' ∉ (log_entry_bytes "2025-06-01 12:00:00" "INFO"
      "Starting VolaryDDNS update process").data ∧
    (log_entry_bytes "2025-06-01 12:00:00" "INFO"
      "Starting VolaryDDNS update process").data.getLast? = some 'n' ∧
    (log_entry_bytes "2025-06-01 12:00:00" "INFO"
      "Starting VolaryDDNS update process").data.dropLast.getLast? = some '\\' :=
  log_entry_not_newline_terminated "2025-06-01 12:00:00" "INFO"
    "Starting VolaryDDNS update process" (by decide) (by decide) (by decide)

/-! ## The log file state and `rotate_log` (source lines 38–41)

```python
def rotate_log():
    if os.path.isfile(LOG_FILE) and os.path.getsize(LOG_FILE) > MAX_LOG_SIZE:
        os.rename(LOG_FILE, LOG_FILE + ".old")
        log_message("INFO", "Log file rotated due to size limit")
```
-/

def MAX_LOG_SIZE : Nat := 1048576

/-- State of the log file and its `.old` sibling during one run.  The
pre-existing content of the current log file is abstracted by its byte
size; the entries appended during the current run are tracked per file
(oldest first). -/
structure LogState where
  curExists : Bool
  curSize : Nat
  curNew : List LogEntry
  oldFile : Option (Nat × List LogEntry)
  deriving DecidableEq

/-- Byte size of one appended entry: `[` + 19-byte timestamp + `] [` +
level + `] ` + message + the two characters backslash and `n`. -/
def entrySize (e : LogEntry) : Nat := 26 + e.level.length + e.message.length

/-- The effect of one `log_message` call on the log file. -/
def appendLog (st : LogState) (e : LogEntry) : LogState :=
  { st with curExists := true
            curSize := st.curSize + entrySize e
            curNew := st.curNew ++ [e] }

def appendLogs (st : LogState) : List LogEntry → LogState
  | [] => st
  | e :: es => appendLogs (appendLog st e) es

/-- The rotation notice logged right after the rename. -/
def rotationEntry : LogEntry := ⟨"INFO", "Log file rotated due to size limit"⟩

/-- Function `rotate_log` from the source: when the log file exists and exceeds
`MAX_LOG_SIZE` bytes, rename it to the `.old` path (overwriting any prior
one) and log the rotation notice, which lands in a freshly created file. -/
def rotate_log (st : LogState) : LogState :=
  if st.curExists && decide (st.curSize > MAX_LOG_SIZE) then
    appendLog
      { curExists := false, curSize := 0, curNew := [],
        oldFile := some (st.curSize, st.curNew) }
      rotationEntry
  else st

theorem appendLogs_oldFile (l : List LogEntry) (st : LogState) :
    (appendLogs st l).oldFile = st.oldFile := by
  induction l generalizing st with
  | nil => rfl
  | cons e es ih => exact ih (appendLog st e)

theorem appendLogs_curNew (l : List LogEntry) (st : LogState) :
    (appendLogs st l).curNew = st.curNew ++ l := by
  induction l generalizing st with
  | nil => simp [appendLogs]
  | cons e es ih =>
    show (appendLogs (appendLog st e) es).curNew = st.curNew ++ e :: es
    rw [ih (appendLog st e)]
    simp [appendLog]

theorem appendLogs_append (a b : List LogEntry) (st : LogState) :
    appendLogs (appendLogs st a) b = appendLogs st (a ++ b) := by
  induction a generalizing st with
  | nil => rfl
  | cons e es ih => exact ih (appendLog st e)

/-! ## `main` and the `__main__` guard (source lines 96–125)

```python
def main():
    log_message("INFO", "Starting VolaryDDNS update process")
    os.makedirs(os.path.dirname(LOG_FILE), exist_ok=True)
    rotate_log()

    ip = get_public_ip()
    if not ip:
        log_message("ERROR", "Failed to get valid public IP after 3 attempts")
        sys.exit(1)

    if os.path.isfile(LAST_IP_FILE):
        with open(LAST_IP_FILE, "r") as f:
            last_ip = f.read().strip()
        if ip == last_ip:
            log_message("INFO", f"IP address unchanged (...), skipping update")
            sys.exit(0)

    if update_ddns(ip):
        log_message("INFO", f"IP successfully updated to ...")
        sys.exit(0)
    else:
        log_message("ERROR", "Failed to update DDNS")
        sys.exit(1)

if __name__ == "__main__":
    try:
        main()
    except KeyboardInterrupt:
        log_message("ERROR", "Script interrupted")
        sys.exit(130)
```

The environment of one invocation: the initial log-file state, the outcome
of each GET attempt, the content of the last-known-IP file (or its
absence), and the outcome of the POST (used only if an update is sent). -/

structure MainEnv where
  initLog : LogState
  outcomes : Nat → FetchOutcome
  lastIpFile : Option String
  post : PostResult

/-- What one invocation of `main` does: the exit code passed to
`sys.exit`, whether `update_ddns` was called, the final log-file state, and
the final content of the last-known-IP file. -/
structure MainResult where
  exitCode : Nat
  updateCalled : Bool
  fs : LogState
  lastIpAfter : Option String

/-- The start message logged as the first statement of `main`. -/
def startEntry : LogEntry := ⟨"INFO", "Starting VolaryDDNS update process"⟩

/-- The exit of `main` when no valid public IP was obtained. -/
def mainNoIp (env : MainEnv) (st : LogState) : MainResult :=
  { exitCode := 1
    updateCalled := false
    fs := appendLog st ⟨"ERROR", "Failed to get valid public IP after 3 attempts"⟩
    lastIpAfter := env.lastIpFile }

/-- The tail of `main` that calls `update_ddns`.  The file content after
the call is the write performed by the update when one happened, else the prior content. -/
def mainUpdate (env : MainEnv) (st : LogState) (ip : String) : MainResult :=
  if (update_ddns ip env.post).success then
    { exitCode := 0
      updateCalled := true
      fs := appendLogs st ((update_ddns ip env.post).logs
              ++ [⟨"INFO", "IP successfully updated to " ++ ip⟩])
      lastIpAfter := ((update_ddns ip env.post).lastIpWrite).or env.lastIpFile }
  else
    { exitCode := 1
      updateCalled := true
      fs := appendLogs st ((update_ddns ip env.post).logs
              ++ [⟨"ERROR", "Failed to update DDNS"⟩])
      lastIpAfter := ((update_ddns ip env.post).lastIpWrite).or env.lastIpFile }

/-- The part of `main` after a valid IP was obtained: compare against the
stripped content of the last-known-IP file if it exists, else update. -/
def mainWithIp (env : MainEnv) (st : LogState) (ip : String) : MainResult :=
  match env.lastIpFile with
  | some content =>
      if ip = pyStrip content then
        { exitCode := 0
          updateCalled := false
          fs := appendLog st
            ⟨"INFO", "IP address unchanged (" ++ ip ++ "), skipping update"⟩
          lastIpAfter := env.lastIpFile }
      else mainUpdate env st ip
  | none => mainUpdate env st ip

/-- Function `main` from the source.  The test `if not ip` also treats an empty string as
absence (Python falsiness); `get_public_ip` cannot in fact return one. -/
def main (env : MainEnv) : MainResult :=
  let st1 := rotate_log (appendLog env.initLog startEntry)
  let st2 := appendLogs st1 (get_public_ip env.outcomes).logs
  match (get_public_ip env.outcomes).ip with
  | none => mainNoIp env st2
  | some ip => if ip = "" then mainNoIp env st2 else mainWithIp env st2 ip

/-- The `__main__` guard: a keyboard interrupt raised during `main` is
caught at the top level, logged, and mapped to exit code 130; otherwise the
process exits with the code from `main`.  The interrupt — an external event — is
modelled as a flag. -/
def script_exit (env : MainEnv) (interrupted : Bool) : Nat :=
  if interrupted then 130 else (main env).exitCode

/-! ### The idempotent no-op path (claims C3 and C10) -/

theorem main_noop_of_strip_eq (env : MainEnv) (ip content : String)
    (hip : (get_public_ip env.outcomes).ip = some ip)
    (hfile : env.lastIpFile = some content)
    (hstrip : pyStrip content = ip) :
    (main env).updateCalled = false ∧ (main env).exitCode = 0 := by
  obtain ⟨hv, hs, hne⟩ := get_public_ip_ip_shape env.outcomes ip hip
  simp only [main, hip]
  rw [if_neg hne]
  simp only [mainWithIp, hfile]
  rw [if_pos hstrip.symm]
  exact ⟨rfl, rfl⟩

/-- C3: when the last-known-IP file exists and stores exactly the freshly
resolved public IP, `main` sends no update request and exits with code 0. -/
theorem main_unchanged_noop (env : MainEnv) (ip : String)
    (hip : (get_public_ip env.outcomes).ip = some ip)
    (hfile : env.lastIpFile = some ip) :
    (main env).updateCalled = false ∧ (main env).exitCode = 0 :=
  main_noop_of_strip_eq env ip ip hip hfile
    (get_public_ip_ip_shape env.outcomes ip hip).2.1

/-- C3 (witness): cached and resolved IP both `203.0.113.5`. -/
theorem main_unchanged_noop_witness :
    (main { initLog := { curExists := true, curSize := 100, curNew := [],
                         oldFile := none },
            outcomes := fun _ => FetchOutcome.resp 200 "203.0.113.5",
            lastIpFile := some "203.0.113.5",
            post := PostResult.exc "unused" }).updateCalled = false ∧
    (main { initLog := { curExists := true, curSize := 100, curNew := [],
                         oldFile := none },
            outcomes := fun _ => FetchOutcome.resp 200 "203.0.113.5",
            lastIpFile := some "203.0.113.5",
            post := PostResult.exc "unused" }).exitCode = 0 :=
  main_unchanged_noop _ "203.0.113.5" (by decide) rfl

/-- C10: the comparison strips surrounding whitespace from the stored file
content: whenever the stripped content equals the resolved IP (e.g. the
file carries a trailing newline), `main` takes the no-op path. -/
theorem main_strip_compare_noop (env : MainEnv) (ip content : String)
    (hip : (get_public_ip env.outcomes).ip = some ip)
    (hfile : env.lastIpFile = some content)
    (hstrip : pyStrip content = ip) :
    (main env).updateCalled = false ∧ (main env).exitCode = 0 :=
  main_noop_of_strip_eq env ip content hip hfile hstrip

/-- C10 (witness): the stored value carries a trailing newline. -/
theorem main_strip_compare_noop_witness :
    (main { initLog := { curExists := true, curSize := 100, curNew := [],
                         oldFile := none },
            outcomes := fun _ => FetchOutcome.resp 200 "203.0.113.5",
            lastIpFile := some "203.0.113.5\n",
            post := PostResult.exc "unused" }).updateCalled = false ∧
    (main { initLog := { curExists := true, curSize := 100, curNew := [],
                         oldFile := none },
            outcomes := fun _ => FetchOutcome.resp 200 "203.0.113.5",
            lastIpFile := some "203.0.113.5\n",
            post := PostResult.exc "unused" }).exitCode = 0 :=
  main_strip_compare_noop _ "203.0.113.5" "203.0.113.5\n" (by decide) rfl (by decide)

/-! ### Exit codes (claim C6) -/

theorem mainUpdate_exit (env : MainEnv) (st : LogState) (ip : String) :
    (mainUpdate env st ip).exitCode = 0 ∨ (mainUpdate env st ip).exitCode = 1 := by
  unfold mainUpdate
  by_cases h : (update_ddns ip env.post).success = true
  · rw [if_pos h]
    exact Or.inl rfl
  · rw [if_neg h]
    exact Or.inr rfl

theorem mainWithIp_exit (env : MainEnv) (st : LogState) (ip : String) :
    (mainWithIp env st ip).exitCode = 0 ∨ (mainWithIp env st ip).exitCode = 1 := by
  cases hf : env.lastIpFile with
  | none =>
    simp only [mainWithIp, hf]
    exact mainUpdate_exit env st ip
  | some content =>
    simp only [mainWithIp, hf]
    by_cases hc : ip = pyStrip content
    · rw [if_pos hc]
      exact Or.inl rfl
    · rw [if_neg hc]
      exact mainUpdate_exit env st ip

/-- C6: every outcome is converted into a process exit code — the model of
a whole invocation is a total function — and the only exit codes produced
are 0 (success or no-op), 1 (IP resolution failed or update failed) and
130 (interrupted). -/
theorem script_exit_codes (env : MainEnv) (intr : Bool) :
    script_exit env intr = 0 ∨ script_exit env intr = 1 ∨
      script_exit env intr = 130 := by
  cases intr with
  | true => exact Or.inr (Or.inr rfl)
  | false =>
    have hm : (main env).exitCode = 0 ∨ (main env).exitCode = 1 := by
      cases hip : (get_public_ip env.outcomes).ip with
      | none =>
        simp only [main, hip]
        exact Or.inr rfl
      | some ip =>
        simp only [main, hip]
        by_cases he : ip = ""
        · rw [if_pos he]
          exact Or.inr rfl
        · rw [if_neg he]
          exact mainWithIp_exit env _ ip
    rcases hm with h | h
    · exact Or.inl (by simp [script_exit, h])
    · exact Or.inr (Or.inl (by simp [script_exit, h]))

/-! ### Log rotation order (claim C7) -/

theorem mainUpdate_fs (env : MainEnv) (st : LogState) (ip : String) :
    ∃ rest, (mainUpdate env st ip).fs = appendLogs st rest := by
  unfold mainUpdate
  by_cases h : (update_ddns ip env.post).success = true
  · rw [if_pos h]
    exact ⟨_, rfl⟩
  · rw [if_neg h]
    exact ⟨_, rfl⟩

theorem mainWithIp_fs (env : MainEnv) (st : LogState) (ip : String) :
    ∃ rest, (mainWithIp env st ip).fs = appendLogs st rest := by
  cases hf : env.lastIpFile with
  | none =>
    simp only [mainWithIp, hf]
    exact mainUpdate_fs env st ip
  | some content =>
    simp only [mainWithIp, hf]
    by_cases hc : ip = pyStrip content
    · rw [if_pos hc]
      exact ⟨[⟨"INFO", "IP address unchanged (" ++ ip ++ "), skipping update"⟩], rfl⟩
    · rw [if_neg hc]
      exact mainUpdate_fs env st ip

/-- Everything `main` does to the log file after its prologue (start entry,
then rotation check) is appending further entries. -/
theorem main_fs_eq (env : MainEnv) :
    ∃ rest, (main env).fs
      = appendLogs (rotate_log (appendLog env.initLog startEntry)) rest := by
  cases hip : (get_public_ip env.outcomes).ip with
  | none =>
    refine ⟨(get_public_ip env.outcomes).logs
      ++ [⟨"ERROR", "Failed to get valid public IP after 3 attempts"⟩], ?_⟩
    simp only [main, hip, mainNoIp]
    rw [← appendLogs_append]
    rfl
  | some ip =>
    by_cases he : ip = ""
    · refine ⟨(get_public_ip env.outcomes).logs
        ++ [⟨"ERROR", "Failed to get valid public IP after 3 attempts"⟩], ?_⟩
      simp only [main, hip]
      rw [if_pos he]
      simp only [mainNoIp]
      rw [← appendLogs_append]
      rfl
    · obtain ⟨rest, hr⟩ := mainWithIp_fs env
        (appendLogs (rotate_log (appendLog env.initLog startEntry))
          (get_public_ip env.outcomes).logs) ip
      refine ⟨(get_public_ip env.outcomes).logs ++ rest, ?_⟩
      simp only [main, hip]
      rw [if_neg he, hr, appendLogs_append]

/-- The prologue of a run that starts with an oversized log file: the start
entry lands in the old file, which is then renamed away; the new file holds
exactly the rotation notice. -/
theorem rotate_prologue (st : LogState) (hex : st.curExists = true)
    (hsz : st.curSize > MAX_LOG_SIZE) (hnew : st.curNew = []) :
    rotate_log (appendLog st startEntry) =
      { curExists := true
        curSize := 0 + entrySize rotationEntry
        curNew := [rotationEntry]
        oldFile := some (st.curSize + entrySize startEntry, [startEntry]) } := by
  unfold rotate_log
  rw [if_pos]
  · simp [appendLog, hnew]
  · simp only [appendLog, Bool.and_eq_true, decide_eq_true_eq, true_and]
    exact Nat.lt_of_lt_of_le hsz (Nat.le_add_right ..)

/-- C7 (counterexample): invoked with a log file of 1,048,577 bytes (larger
than the 1,048,576-byte limit), the run produces an `.old` file that
contains the start entry appended during this same run — the rename did not
happen before new entries were appended — while the new log file does begin
with the rotation notice. -/
theorem log_rotation_order_cex :
    (main { initLog := { curExists := true, curSize := 1048577, curNew := [],
                         oldFile := none },
            outcomes := fun _ => FetchOutcome.exc "down",
            lastIpFile := none,
            post := PostResult.exc "unused" }).fs.oldFile
      = some (1048641, [startEntry]) ∧
    ([startEntry] : List LogEntry) ≠ [] := by
  refine ⟨?_, ?_⟩ <;> decide

/-- C7 (amended): with an oversized log file at invocation, the run first
appends its start entry to the existing log file, then renames that file to
the `.old` suffix (so the `.old` file ends with the start entry of this run),
and the newly created log file begins with the rotation notice. -/
theorem log_rotation_amended (env : MainEnv)
    (hex : env.initLog.curExists = true)
    (hsz : env.initLog.curSize > MAX_LOG_SIZE)
    (hnew : env.initLog.curNew = []) :
    (main env).fs.oldFile
      = some (env.initLog.curSize + entrySize startEntry, [startEntry]) ∧
    (main env).fs.curNew.head? = some rotationEntry := by
  obtain ⟨rest, hr⟩ := main_fs_eq env
  rw [hr, appendLogs_oldFile, appendLogs_curNew,
    rotate_prologue env.initLog hex hsz hnew]
  exact ⟨rfl, rfl⟩

/-- C7 (witness): the amended statement evaluated on a concrete oversized
log file. -/
theorem log_rotation_amended_witness :
    (main { initLog := { curExists := true, curSize := 1048577, curNew := [],
                         oldFile := none },
            outcomes := fun _ => FetchOutcome.exc "down",
            lastIpFile := none,
            post := PostResult.exc "unused" }).fs.oldFile
      = some (1048577 + entrySize startEntry, [startEntry]) ∧
    (main { initLog := { curExists := true, curSize := 1048577, curNew := [],
                         oldFile := none },
            outcomes := fun _ => FetchOutcome.exc "down",
            lastIpFile := none,
            post := PostResult.exc "unused" }).fs.curNew.head?
      = some rotationEntry :=
  log_rotation_amended _ rfl (by decide) rfl

end VolaryDDNS
